import Mathlib

/-!
Verification development for `papers_cli.py`, a CLI tracking paper reading
progress. The embedding models:

* the progress store (`set_paper_status`, `reset_papers`, progress bootstrap)
  over a typed record model of the persisted working set;
* the catalog bootstrap pipeline (`flatten_papers`, `assign_ids`) over an
  untyped dictionary model mirroring the YAML data the Python code receives;
* the filename sanitizer (`sanitize_filename`) used by `download_paper`.

File I/O, YAML (de)serialization, argparse and HTTP are external collaborators
and are not modelled; `datetime.date.today().isoformat()` is passed in as an
explicit `today : String` parameter.
-/

set_option autoImplicit false

namespace PapersCli

/-! ### Working-set record model

A record in the persisted working set (`papers_progress.yml`).  Every record
carries a `progress` sub-dict with the three fields written by the bootstrap;
`extra` holds any raw-catalog pass-through fields (modelled as string pairs,
their exact values are irrelevant to the progress store, which never reads
them). -/

/-- The `progress` sub-record: `status`, `start_date`, `finished_date`.
`none` models Python `None` (YAML null); note `some ""` is a distinct value,
falsy in Python, which the code treats like `None` via truthiness. -/
structure Progress where
  status : String
  start_date : Option String
  finished_date : Option String
deriving DecidableEq, Repr

/-- A working-set record. `id` is `Option` because `paper.get("id")` returns
`None` when the key is absent. -/
structure Paper where
  id : Option Int
  title : Option String
  link : Option String
  parent_title : Option String
  progress : Progress
  extra : List (String × String)
deriving DecidableEq, Repr

/-- Python `str.lower()`, ASCII fragment (the CLI's statuses and aliases are
ASCII; Python's Unicode case mapping agrees with this on ASCII). -/
def pyLower (s : String) : String :=
  ⟨s.data.map Char.toLower⟩

/-- `STATUS_ALIASES` from the source: short codes to full status strings. -/
def STATUS_ALIASES : List (String × String) :=
  [("ns", "not started"), ("ip", "in progress"), ("d", "read")]

/-- `dict.get(key, default)` on `STATUS_ALIASES`: first matching key wins. -/
def aliasLookup (k : String) : Option String :=
  (STATUS_ALIASES.find? (fun kv => kv.1 == k)).map Prod.snd

/-- Line 126: `STATUS_ALIASES.get(status.lower(), status).lower()`. -/
def resolveStatus (status : String) : String :=
  pyLower ((aliasLookup (pyLower status)).getD status)

/-- The closed status set checked at line 133. -/
def validStatuses : List String := ["not started", "in progress", "read"]

/-- Python truthiness of `paper["progress"].get("start_date")`:
`None` and `""` are falsy. -/
def pyTruthy : Option String → Bool
  | none => false
  | some s => s != ""

/-- Python `x or d` for an optional string `x`: `None` and `""` both fall
through to the default. -/
def pyOr (o : Option String) (dflt : String) : String :=
  match o with
  | none => dflt
  | some s => if s == "" then dflt else s

/-- Lines 137–148: the in-place mutation of a found record's `progress`,
for an already-validated `status`.  Line 137 writes `status` first; the
branches then adjust the two dates. -/
def applyTransition (status : String) (start_date finished_date : Option String)
    (today : String) (p : Paper) : Paper :=
  let p1 : Paper := { p with progress := { p.progress with status := status } }
  if status == "in progress" then
    { p1 with progress := { p1.progress with
        start_date := some (pyOr start_date today), finished_date := none } }
  else if status == "read" then
    let p2 : Paper :=
      if pyTruthy p1.progress.start_date then p1
      else { p1 with progress := { p1.progress with
               start_date := some (pyOr start_date today) } }
    { p2 with progress := { p2.progress with
        finished_date := some (pyOr finished_date today) } }
  else if status == "not started" then
    { p1 with progress := { p1.progress with
        start_date := none, finished_date := none } }
  else p1

/-- Outcome of `set_paper_status`: either the not-found report (line 152),
the invalid-status report (line 134, reached only for a found record), or a
successful write-back of the updated list (line 154). Only `saved` persists. -/
inductive SetResult where
  | notFound
  | invalidStatus
  | saved (papers : List Paper)
deriving DecidableEq, Repr

/-- Lines 130–149: iterate over the records; at the first record whose `id`
equals `paper_id`, validate the status (returning with no write-back when
invalid), otherwise mutate that record and `break`.  Records after the first
match are never touched. -/
def setStatusLoop (paper_id : Int) (status : String)
    (start_date finished_date : Option String) (today : String) :
    List Paper → SetResult
  | [] => SetResult.notFound
  | p :: rest =>
    if p.id == some paper_id then
      if validStatuses.contains status then
        SetResult.saved (applyTransition status start_date finished_date today p :: rest)
      else SetResult.invalidStatus
    else
      match setStatusLoop paper_id status start_date finished_date today rest with
      | SetResult.notFound => SetResult.notFound
      | SetResult.invalidStatus => SetResult.invalidStatus
      | SetResult.saved rest' => SetResult.saved (p :: rest')

/-- `set_paper_status(paper_id, status, start_date, finished_date)` acting on
a loaded working set `papers`, with today's date passed explicitly. -/
def set_paper_status (papers : List Paper) (paper_id : Int) (status : String)
    (start_date finished_date : Option String) (today : String) : SetResult :=
  setStatusLoop paper_id (resolveStatus status) start_date finished_date today papers

/-- The default progress triple written by bootstrap and reset
(lines 70–75, 96–100, 110–114). -/
def defaultProgress : Progress :=
  { status := "not started", start_date := none, finished_date := none }

/-- `reset_papers` (lines 104–116): overwrite every record's `progress` with
the default triple. -/
def reset_papers (papers : List Paper) : List Paper :=
  papers.map (fun p => { p with progress := defaultProgress })

/-- The progress bootstrap inside `load_papers`/`init_papers`
(lines 70–75 / 95–100): attach the default progress to every record. -/
def bootstrapProgress (papers : List Paper) : List Paper :=
  papers.map (fun p => { p with progress := defaultProgress })

/-- First record whose `id` matches, mirroring the loop's search order. -/
def findFirst (papers : List Paper) (paper_id : Int) : Option Paper :=
  papers.find? (fun p => p.id == some paper_id)

/-! ### Filename sanitation (`sanitize_filename`, lines 20–25, used at 197–198)

The Python code is `re.sub(r'(?u)[^-\w.]', '', s.strip().replace(" ", "_"))`.
The embedding covers the ASCII fragment exactly: `(?u)\w` additionally matches
non-ASCII word characters and `str.strip()` also removes non-ASCII Unicode
spaces, but on ASCII input both are modelled faithfully. -/

/-- The ASCII whitespace removed by `str.strip()`: the characters `c < 128`
with `c.isspace()` true in Python, i.e. 9-13, 28-31 and 32. -/
def pyWhitespace (c : Char) : Bool :=
  c == ' ' || c == '\t' || c == '\n' || c == '\r' || c == '\x0b' || c == '\x0c' ||
    c == '\x1c' || c == '\x1d' || c == '\x1e' || c == '\x1f'

/-- Python `s.strip()`: drop leading and trailing whitespace. -/
def pyStrip (s : String) : String :=
  ⟨((s.data.dropWhile pyWhitespace).reverse.dropWhile pyWhitespace).reverse⟩

/-- Python `s.replace(" ", "_")` for the single-character pattern. -/
def replaceSpaces (s : String) : String :=
  ⟨s.data.map (fun c => if c == ' ' then '_' else c)⟩

/-- The regex class `[^-\w.]` (ASCII fragment): characters the `re.sub`
deletes. -/
def unsafeChar (c : Char) : Bool :=
  !(c == '-' || c.isAlphanum || c == '_' || c == '.')

/-- `sanitize_filename` (lines 20–25): strip, replace spaces by underscores,
delete every character matching `[^-\w.]`. -/
def sanitize_filename (s : String) : String :=
  ⟨(replaceSpaces (pyStrip s)).data.filter (fun c => !(unsafeChar c))⟩

/-- Line 198 of `download_paper`: the saved filename. -/
def downloadFilename (title : String) : String :=
  sanitize_filename title ++ ".pdf"

/-- The character class `[A-Za-z0-9_.-]` as the spec words it. -/
def specKeep (c : Char) : Bool :=
  c.isUpper || c.isLower || c.isDigit || c == '_' || c == '.' || c == '-'

/-- The filename derivation exactly as the spec describes it: replace spaces
with underscores, strip characters outside `[A-Za-z0-9_.-]`, append `.pdf` —
with no initial whitespace trim. -/
def specFilename (title : String) : String :=
  ⟨(replaceSpaces title).data.filter specKeep⟩ ++ ".pdf"

/-! ### Untyped document model for the raw catalog (`papers.yml`)

The bootstrap pipeline (`flatten_papers`, `assign_ids`) manipulates the
YAML data as Python dictionaries; `Val` models a YAML value and a dictionary
is an insertion-ordered association list with (in any data Python produces)
unique keys. -/

/-- A YAML/Python value as the CLI sees it. -/
inductive Val where
  | vnull : Val
  | vstr : String → Val
  | vint : Int → Val
  | vlist : List Val → Val
  | vdict : List (String × Val) → Val

/-- A Python dict: insertion-ordered key/value pairs. -/
abbrev Dict := List (String × Val)

/-- `key in d`. -/
def dictHas (k : String) (d : Dict) : Bool :=
  d.any (fun kv => kv.1 == k)

/-- `d[key]` as an option (first matching key). -/
def dictGet (k : String) (d : Dict) : Option Val :=
  (d.find? (fun kv => kv.1 == k)).map Prod.snd

/-- `d.get(key)`: `None` when the key is absent. -/
def pyGet (k : String) (d : Dict) : Val :=
  (dictGet k d).getD Val.vnull

/-- `del d[key]`. -/
def dictDel (k : String) (d : Dict) : Dict :=
  d.filter (fun kv => kv.1 != k)

/-- `d[key] = v`: update in place when the key exists, else append. -/
def dictSet (k : String) (v : Val) (d : Dict) : Dict :=
  if dictHas k d then d.map (fun kv => if kv.1 == k then (k, v) else kv)
  else d ++ [(k, v)]

/-- Lines 41–44: copy each related entry and attach `parent_title`.  A
non-dict entry makes Python raise (`.copy()` on a non-dict), modelled as
`none`. -/
def copyRelated (parent : Val) : List Val → Option (List Dict)
  | [] => some []
  | Val.vdict d :: rest =>
    (copyRelated parent rest).map (fun ds => dictSet "parent_title" parent d :: ds)
  | _ :: _ => none

/-- `flatten_papers` (lines 27–45): for each top-level entry emit a copy
without `related`, then the related entries (if `related` holds a list),
each tagged with the parent's title. -/
def flatten_papers : List Dict → Option (List Dict)
  | [] => some []
  | paper :: rest =>
    let main_paper := dictDel "related" paper
    let rels? : Option (List Dict) :=
      match dictGet "related" paper with
      | some (Val.vlist l) => copyRelated (pyGet "title" paper) l
      | _ => some []
    match rels?, flatten_papers rest with
    | some rels, some tail => some (main_paper :: (rels ++ tail))
    | _, _ => none

/-- `assign_ids` (lines 47–54): `for idx, paper in enumerate(papers, start=1)`,
assign `idx` as the id of any record lacking one. -/
def assign_ids (papers : List Dict) : List Dict :=
  (papers.enumFrom 1).map
    (fun ip => if dictHas "id" ip.2 then ip.2
               else dictSet "id" (Val.vint (Int.ofNat ip.1)) ip.2)

/-- The list stored under `related` when it is a list (the only case the code
expands); `[]` otherwise. -/
def relVals (paper : Dict) : List Val :=
  match dictGet "related" paper with
  | some (Val.vlist l) => l
  | _ => []

/-- The dict payloads of the related entries. -/
def relDicts (paper : Dict) : List Dict :=
  (relVals paper).filterMap (fun v => match v with | Val.vdict d => some d | _ => none)

/-- `true` exactly on dict values. -/
def isDictVal : Val → Bool
  | Val.vdict _ => true
  | _ => false

/-- Well-formed entry: every nested related entry is a dict (Python raises
otherwise). -/
def RelWF (paper : Dict) : Prop :=
  ∀ v ∈ relVals paper, isDictVal v = true

instance (paper : Dict) : Decidable (RelWF paper) := by
  unfold RelWF
  infer_instance

/-- The spec's description of flattening: pre-order, top-level entry without
its relation field, then its related entries tagged with `parent_title`. -/
def specFlatten (papers : List Dict) : List Dict :=
  papers.flatMap (fun paper =>
    dictDel "related" paper ::
      (relDicts paper).map (fun d => dictSet "parent_title" (pyGet "title" paper) d))

/-- The frame of a record: every field except `progress`. -/
def frameOf (p : Paper) :
    Option Int × Option String × Option String × Option String ×
      List (String × String) :=
  (p.id, p.title, p.link, p.parent_title, p.extra)

/-- A record's date invariant: a non-null finished date forces status
`read`, and an `in progress` or `read` status forces a non-null start
date. -/
def DateInv (p : Paper) : Prop :=
  (p.progress.finished_date ≠ none → p.progress.status = "read") ∧
  ((p.progress.status = "in progress" ∨ p.progress.status = "read") →
    p.progress.start_date ≠ none)

instance (p : Paper) : Decidable (DateInv p) := by
  unfold DateInv
  infer_instance

/-! ### Shared concrete sample data -/

/-- A sample working-set record with both an id and an existing start date. -/
def samplePaper : Paper :=
  { id := some 1, title := some "T", link := none, parent_title := none,
    progress := { status := "in progress", start_date := some "2020-01-01",
                  finished_date := none },
    extra := [] }

/-- A sample raw catalog: one entry with two related entries, one without. -/
def sampleCatalog : List Dict :=
  [[("title", Val.vstr "A"),
    ("related", Val.vlist [Val.vdict [("title", Val.vstr "B")],
                           Val.vdict [("title", Val.vstr "C")]])],
   [("title", Val.vstr "D")]]

/-- A sample flat list mixing a record that already carries an id with one
that does not. -/
def sampleMixed : List Dict :=
  [[("id", Val.vint 7), ("title", Val.vstr "c")],
   [("title", Val.vstr "n")]]

/-! ### Helper lemmas -/

theorem keepChar_eq (c : Char) : (!(unsafeChar c)) = specKeep c := by
  simp only [unsafeChar, specKeep, Char.isAlphanum, Char.isAlpha, Bool.not_not]
  cases h1 : (c == '-') <;> cases h2 : c.isUpper <;> cases h3 : c.isLower <;>
    cases h4 : c.isDigit <;> cases h5 : (c == '_') <;> cases h6 : (c == '.') <;> simp

theorem pyOr_empty (t : String) : pyOr (some "") t = pyOr none t := rfl

theorem applyTransition_empty_start (st : String) (fd : Option String)
    (today : String) (p : Paper) :
    applyTransition st (some "") fd today p = applyTransition st none fd today p := by
  unfold applyTransition
  rw [pyOr_empty]

theorem applyTransition_empty_fin (st : String) (sd : Option String)
    (today : String) (p : Paper) :
    applyTransition st sd (some "") today p = applyTransition st sd none today p := by
  unfold applyTransition
  rw [pyOr_empty]

theorem setStatusLoop_empty_start (pid : Int) (st : String) (fd : Option String)
    (today : String) :
    ∀ ps : List Paper, setStatusLoop pid st (some "") fd today ps
      = setStatusLoop pid st none fd today ps
  | [] => rfl
  | p :: rest => by
    unfold setStatusLoop
    rw [applyTransition_empty_start, setStatusLoop_empty_start pid st fd today rest]

theorem setStatusLoop_empty_fin (pid : Int) (st : String) (sd : Option String)
    (today : String) :
    ∀ ps : List Paper, setStatusLoop pid st sd (some "") today ps
      = setStatusLoop pid st sd none today ps
  | [] => rfl
  | p :: rest => by
    unfold setStatusLoop
    rw [applyTransition_empty_fin, setStatusLoop_empty_fin pid st sd today rest]

theorem frameOf_applyTransition (st : String) (sd fd : Option String)
    (today : String) (p : Paper) :
    frameOf (applyTransition st sd fd today p) = frameOf p := by
  unfold applyTransition frameOf
  split
  · rfl
  · split
    · cases h : pyTruthy p.progress.start_date <;> simp [h]
    · split <;> rfl

theorem id_applyTransition (st : String) (sd fd : Option String)
    (today : String) (p : Paper) :
    (applyTransition st sd fd today p).id = p.id :=
  congrArg Prod.fst (frameOf_applyTransition st sd fd today p)

theorem setStatusLoop_found (pid : Int) (st : String) (sd fd : Option String)
    (today : String) (hst : validStatuses.contains st = true) :
    ∀ (ps : List Paper) (p : Paper), findFirst ps pid = some p →
      ∃ ps', setStatusLoop pid st sd fd today ps = SetResult.saved ps' ∧
        findFirst ps' pid = some (applyTransition st sd fd today p)
  | [], p, h => by simp [findFirst] at h
  | q :: rest, p, h => by
    have hm : st ∈ validStatuses := by simpa using hst
    cases hq : (q.id == some pid) with
    | true =>
      have hp : p = q := by
        simp only [findFirst, List.find?_cons, hq, cond_true, Option.some.injEq] at h
        exact h.symm
      subst hp
      refine ⟨applyTransition st sd fd today p :: rest, ?_, ?_⟩
      · simp [setStatusLoop, hq, hm]
      · simp [findFirst, List.find?_cons, id_applyTransition, hq]
    | false =>
      have hr : findFirst rest pid = some p := by
        simpa only [findFirst, List.find?_cons, hq, cond_false] using h
      obtain ⟨rest', h1, h2⟩ := setStatusLoop_found pid st sd fd today hst rest p hr
      refine ⟨q :: rest', ?_, ?_⟩
      · simp [setStatusLoop, hq, h1]
      · simpa only [findFirst, List.find?_cons, hq, cond_false] using h2

theorem applyTransition_read (sd fd : Option String) (today : String) (p : Paper) :
    applyTransition "read" sd fd today p = { p with progress :=
      { status := "read",
        start_date := if pyTruthy p.progress.start_date then p.progress.start_date
                      else some (pyOr sd today),
        finished_date := some (pyOr fd today) } } := by
  cases h : pyTruthy p.progress.start_date <;> simp [applyTransition, h]

theorem setStatusLoop_invalid (pid : Int) (st : String) (sd fd : Option String)
    (today : String) (hst : validStatuses.contains st = false) :
    ∀ ps : List Paper, setStatusLoop pid st sd fd today ps
      = if ps.any (fun p => p.id == some pid) then SetResult.invalidStatus
        else SetResult.notFound
  | [] => rfl
  | p :: rest => by
    have hm : st ∉ validStatuses := by simpa using hst
    cases hq : (p.id == some pid) with
    | true => simp [setStatusLoop, hq, hm]
    | false =>
      rw [List.any_cons, hq, Bool.false_or]
      cases h2 : rest.any (fun p => p.id == some pid) with
      | true => simp [setStatusLoop, hq, setStatusLoop_invalid pid st sd fd today hst rest, h2]
      | false => simp [setStatusLoop, hq, setStatusLoop_invalid pid st sd fd today hst rest, h2]

theorem applyTransition_ns (sd fd : Option String) (today : String) (p : Paper) :
    applyTransition "not started" sd fd today p = { p with progress :=
      { status := "not started", start_date := none, finished_date := none } } :=
  rfl

theorem applyTransition_ip (sd fd : Option String) (today : String) (p : Paper) :
    applyTransition "in progress" sd fd today p = { p with progress :=
      { status := "in progress", start_date := some (pyOr sd today),
        finished_date := none } } :=
  rfl

theorem setStatusLoop_first_match (pid : Int) (st : String) (sd fd : Option String)
    (today : String) (hst : validStatuses.contains st = true) (p : Paper)
    (hp : p.id = some pid) :
    ∀ ps1 ps2 : List Paper, (∀ q ∈ ps1, q.id ≠ some pid) →
      setStatusLoop pid st sd fd today (ps1 ++ p :: ps2)
        = SetResult.saved (ps1 ++ applyTransition st sd fd today p :: ps2)
  | [], ps2, _ => by
    have hm : st ∈ validStatuses := by simpa using hst
    have hq : (p.id == some pid) = true := by simp [hp]
    simp [setStatusLoop, hq, hm]
  | q :: qs, ps2, h1 => by
    have hq : (q.id == some pid) = false := by
      simpa using h1 q (List.mem_cons_self _ _)
    have ih := setStatusLoop_first_match pid st sd fd today hst p hp qs ps2
      (fun r hr => h1 r (List.mem_cons_of_mem _ hr))
    simp [setStatusLoop, hq, ih]

theorem applyTransition_inv (st : String) (sd fd : Option String) (today : String)
    (p : Paper) (hst : validStatuses.contains st = true) :
    DateInv (applyTransition st sd fd today p) := by
  have hm : st = "not started" ∨ st = "in progress" ∨ st = "read" := by
    simpa [validStatuses, or_comm, or_left_comm] using hst
  rcases hm with h | h | h <;> subst h
  · rw [applyTransition_ns]
    exact ⟨fun hf => absurd rfl hf, fun hs => by rcases hs with hs | hs <;> simp at hs⟩
  · rw [applyTransition_ip]
    exact ⟨fun hf => absurd rfl hf, fun _ => by simp⟩
  · rw [applyTransition_read]
    refine ⟨fun _ => rfl, fun _ => ?_⟩
    cases h : pyTruthy p.progress.start_date with
    | true =>
      simp only [h, if_true]
      cases hs : p.progress.start_date with
      | none => rw [hs] at h; simp [pyTruthy] at h
      | some s => simp
    | false => simp [h]

theorem setStatusLoop_inv (pid : Int) (st : String) (sd fd : Option String)
    (today : String) (hst : validStatuses.contains st = true) :
    ∀ ps ps' : List Paper, (∀ p ∈ ps, DateInv p) →
      setStatusLoop pid st sd fd today ps = SetResult.saved ps' →
      ∀ p ∈ ps', DateInv p
  | [], ps', _, h => by simp [setStatusLoop] at h
  | q :: rest, ps', hinv, h => by
    cases hq : (q.id == some pid) with
    | true =>
      simp only [setStatusLoop, hq, hst, if_true, SetResult.saved.injEq] at h
      subst h
      intro p hp
      rcases List.mem_cons.mp hp with rfl | hp
      · exact applyTransition_inv st sd fd today q hst
      · exact hinv p (List.mem_cons_of_mem _ hp)
    | false =>
      simp only [setStatusLoop, hq, Bool.false_eq_true, if_false] at h
      cases hrec : setStatusLoop pid st sd fd today rest with
      | notFound => rw [hrec] at h; simp at h
      | invalidStatus => rw [hrec] at h; simp at h
      | saved rest' =>
        rw [hrec] at h
        simp only [SetResult.saved.injEq] at h
        subst h
        intro p hp
        rcases List.mem_cons.mp hp with rfl | hp
        · exact hinv p (List.mem_cons_self _ _)
        · exact setStatusLoop_inv pid st sd fd today hst rest rest'
            (fun r hr => hinv r (List.mem_cons_of_mem _ hr)) hrec p hp

theorem setStatusLoop_frame (pid : Int) (st : String) (sd fd : Option String)
    (today : String) :
    ∀ ps ps' : List Paper, setStatusLoop pid st sd fd today ps = SetResult.saved ps' →
      ps'.map frameOf = ps.map frameOf
  | [], ps', h => by simp [setStatusLoop] at h
  | q :: rest, ps', h => by
    cases hq : (q.id == some pid) with
    | true =>
      cases hv : validStatuses.contains st with
      | true =>
        simp only [setStatusLoop, hq, hv, if_true, SetResult.saved.injEq] at h
        subst h
        simp [frameOf_applyTransition]
      | false =>
        simp only [setStatusLoop, hq, hv, Bool.false_eq_true, if_false, if_true] at h
        exact SetResult.noConfusion h
    | false =>
      simp only [setStatusLoop, hq, Bool.false_eq_true, if_false] at h
      cases hrec : setStatusLoop pid st sd fd today rest with
      | notFound => rw [hrec] at h; simp at h
      | invalidStatus => rw [hrec] at h; simp at h
      | saved rest' =>
        rw [hrec] at h
        simp only [SetResult.saved.injEq] at h
        subst h
        simp only [List.map_cons]
        rw [setStatusLoop_frame pid st sd fd today rest rest' hrec]

/-! ### Claim theorems -/

/-- C5: the date invariant — `finished_date` non-null implies status `read`,
and a non-null `start_date` whenever status is `in progress` or `read` — is
preserved by every successful set-status transition with a valid status and
non-empty overrides, and holds after reset and after the progress
bootstrap. -/
theorem progress_date_invariant :
    (∀ (papers : List Paper) (paper_id : Int) (status : String)
        (start_date finished_date : Option String) (today : String)
        (papers' : List Paper),
        (∀ p ∈ papers, DateInv p) →
        validStatuses.contains (resolveStatus status) = true →
        start_date ≠ some "" → finished_date ≠ some "" →
        set_paper_status papers paper_id status start_date finished_date today
          = SetResult.saved papers' →
        ∀ p ∈ papers', DateInv p) ∧
    (∀ papers : List Paper, ∀ p ∈ reset_papers papers, DateInv p) ∧
    (∀ papers : List Paper, ∀ p ∈ bootstrapProgress papers, DateInv p) := by
  refine ⟨?_, ?_, ?_⟩
  · intro papers paper_id status sd fd today papers' hinv hv _ _ h
    exact setStatusLoop_inv paper_id (resolveStatus status) sd fd today hv
      papers papers' hinv h
  · intro papers p hp
    simp only [reset_papers, List.mem_map] at hp
    obtain ⟨q, _, rfl⟩ := hp
    exact ⟨fun hf => absurd rfl hf,
      fun hs => by rcases hs with hs | hs <;> simp [defaultProgress] at hs⟩
  · intro papers p hp
    simp only [bootstrapProgress, List.mem_map] at hp
    obtain ⟨q, _, rfl⟩ := hp
    exact ⟨fun hf => absurd rfl hf,
      fun hs => by rcases hs with hs | hs <;> simp [defaultProgress] at hs⟩

theorem progress_date_invariant_witness :
    DateInv { samplePaper with progress :=
      { status := "read", start_date := some "2020-01-01",
        finished_date := some "2024-06-01" } } :=
  progress_date_invariant.1 [samplePaper] 1 "d" none none "2024-06-01"
    [{ samplePaper with progress :=
        { status := "read", start_date := some "2020-01-01",
          finished_date := some "2024-06-01" } }]
    (by decide) rfl (by decide) (by decide) rfl
    { samplePaper with progress :=
      { status := "read", start_date := some "2020-01-01",
        finished_date := some "2024-06-01" } }
    (List.mem_singleton.mpr rfl)

/-- C8: reset rewrites every record's progress to exactly the default triple
`{not started, null, null}`, and neither reset nor any set-status write-back
changes `id`, `title`, `link`, `parent_title` or the pass-through fields of
any record. -/
theorem reset_setStatus_frame :
    (∀ papers : List Paper,
        (reset_papers papers).map frameOf = papers.map frameOf ∧
        ∀ p ∈ reset_papers papers, p.progress = defaultProgress) ∧
    (∀ (papers : List Paper) (paper_id : Int) (status : String)
        (start_date finished_date : Option String) (today : String)
        (papers' : List Paper),
        set_paper_status papers paper_id status start_date finished_date today
          = SetResult.saved papers' →
        papers'.map frameOf = papers.map frameOf) := by
  refine ⟨fun papers => ⟨?_, ?_⟩,
    fun papers paper_id status sd fd today papers' h =>
      setStatusLoop_frame paper_id (resolveStatus status) sd fd today
        papers papers' h⟩
  · rw [reset_papers, List.map_map]
    rfl
  · intro p hp
    simp only [reset_papers, List.mem_map] at hp
    obtain ⟨q, _, rfl⟩ := hp
    rfl

theorem reset_setStatus_frame_witness :
    [{ samplePaper with progress :=
        { status := "read", start_date := some "2020-01-01",
          finished_date := some "2024-06-01" } }].map frameOf
      = [samplePaper].map frameOf :=
  reset_setStatus_frame.2 [samplePaper] 1 "d" none none "2024-06-01"
    [{ samplePaper with progress :=
        { status := "read", start_date := some "2020-01-01",
          finished_date := some "2024-06-01" } }] rfl

/-- C1 (counterexample): with an existing `start_date` and an explicit
start-date override, the `read` transition keeps the old `start_date` and
ignores the override, contradicting the claim that a provided override always
wins. -/
theorem setStatus_read_override_counterexample :
    set_paper_status [samplePaper] 1 "read" (some "2021-05-05") none "2024-06-01"
      = SetResult.saved [{ samplePaper with progress :=
          { status := "read", start_date := some "2020-01-01",
            finished_date := some "2024-06-01" } }] ∧
    (some "2020-01-01" : Option String) ≠ some "2021-05-05" :=
  ⟨rfl, by decide⟩

/-- C1 (amended): for a record found by id, the `read` transition sets
`finished_date` to the override if provided (non-empty) else today's date;
`start_date` is written only when it is currently unset (null or empty), in
which case it becomes the override if provided else today's date — an
existing `start_date` is preserved even when an override is given. -/
theorem setStatus_read_dates (papers : List Paper) (paper_id : Int)
    (start_date finished_date : Option String) (today : String) (p : Paper)
    (hfind : findFirst papers paper_id = some p) :
    ∃ papers', set_paper_status papers paper_id "read" start_date finished_date today
        = SetResult.saved papers' ∧
      findFirst papers' paper_id = some { p with progress :=
        { status := "read",
          start_date := if pyTruthy p.progress.start_date then p.progress.start_date
                        else some (pyOr start_date today),
          finished_date := some (pyOr finished_date today) } } := by
  obtain ⟨ps', h1, h2⟩ := setStatusLoop_found paper_id "read" start_date finished_date
    today rfl papers p hfind
  exact ⟨ps', h1, by rw [h2, applyTransition_read]⟩

theorem setStatus_read_dates_witness :
    findFirst [{ samplePaper with progress :=
        { status := "read", start_date := some "2020-01-01",
          finished_date := some "2024-06-01" } }] 1
      = some { samplePaper with progress :=
        { status := "read", start_date := some "2020-01-01",
          finished_date := some "2024-06-01" } } := by
  obtain ⟨ps', h1, h2⟩ :=
    setStatus_read_dates [samplePaper] 1 (some "2021-05-05") none "2024-06-01"
      samplePaper rfl
  have hps : ps' = [{ samplePaper with progress :=
      { status := "read", start_date := some "2020-01-01",
        finished_date := some "2024-06-01" } }] := by
    have h3 : SetResult.saved ps'
        = SetResult.saved [{ samplePaper with progress :=
            { status := "read", start_date := some "2020-01-01",
              finished_date := some "2024-06-01" } }] := h1.symm.trans rfl
    injection h3
  rw [hps] at h2
  simpa [samplePaper, pyTruthy, pyOr] using h2

/-- C2 (counterexample): with an invalid status and an id absent from the
working set, the code reports not-found rather than invalid-status — the
validation happens only once a record with the id has been found, not before
the lookup. -/
theorem setStatus_invalid_notfound_counterexample :
    set_paper_status [] 1 "bogus" none none "2024-06-01" = SetResult.notFound ∧
      SetResult.notFound ≠ SetResult.invalidStatus :=
  ⟨rfl, by decide⟩

/-- C2 (amended): for a status that after alias resolution and lower-casing
lies outside the closed set, `set_paper_status` performs no write-back: it
reports invalid-status when some record carries the id, and not-found
otherwise — validation of the status happens after the record lookup. -/
theorem setStatus_invalid_after_lookup (papers : List Paper) (paper_id : Int)
    (status : String) (start_date finished_date : Option String) (today : String)
    (hst : validStatuses.contains (resolveStatus status) = false) :
    set_paper_status papers paper_id status start_date finished_date today
      = (if papers.any (fun p => p.id == some paper_id) then SetResult.invalidStatus
         else SetResult.notFound) ∧
    ∀ papers', set_paper_status papers paper_id status start_date finished_date today
      ≠ SetResult.saved papers' := by
  have h := setStatusLoop_invalid paper_id (resolveStatus status) start_date
    finished_date today hst papers
  refine ⟨h, fun papers' hc => ?_⟩
  rw [show set_paper_status papers paper_id status start_date finished_date today
      = setStatusLoop paper_id (resolveStatus status) start_date finished_date today papers
    from rfl, h] at hc
  by_cases hany : papers.any (fun p => p.id == some paper_id) = true
  · rw [if_pos hany] at hc
    exact SetResult.noConfusion hc
  · rw [if_neg hany] at hc
    exact SetResult.noConfusion hc

theorem setStatus_invalid_witness :
    set_paper_status [samplePaper] 1 "bogus" none none "2024-06-01"
      = (if [samplePaper].any (fun p => p.id == some 1) then SetResult.invalidStatus
         else SetResult.notFound) :=
  (setStatus_invalid_after_lookup [samplePaper] 1 "bogus" none none "2024-06-01" rfl).1

/-- C9: when several records share an id, a valid set-status call mutates
only the first match in list order; the loop stops there and every later
record — including later duplicates of the id — is returned unchanged. -/
theorem setStatus_first_match (ps1 : List Paper) (p : Paper) (ps2 : List Paper)
    (paper_id : Int) (status : String) (start_date finished_date : Option String)
    (today : String)
    (h1 : ∀ q ∈ ps1, q.id ≠ some paper_id)
    (h2 : p.id = some paper_id)
    (h3 : validStatuses.contains (resolveStatus status) = true) :
    set_paper_status (ps1 ++ p :: ps2) paper_id status start_date finished_date today
      = SetResult.saved
          (ps1 ++ applyTransition (resolveStatus status) start_date finished_date today p
            :: ps2) :=
  setStatusLoop_first_match paper_id (resolveStatus status) start_date finished_date
    today h3 p h2 ps1 ps2 h1

theorem setStatus_first_match_witness :
    set_paper_status [samplePaper, samplePaper] 1 "ns" none none "2024-06-01"
      = SetResult.saved
          [{ samplePaper with progress :=
              { status := "not started", start_date := none, finished_date := none } },
            samplePaper] := by
  have h := setStatus_first_match [] samplePaper [samplePaper] 1 "ns" none none
    "2024-06-01" (by simp) rfl rfl
  exact h

/-- C6 (counterexample): the claim's derivation (no initial whitespace trim)
disagrees with the code on a title with a leading space: the code's
`s.strip()` removes it, while the claim's algorithm turns it into an
underscore. -/
theorem downloadFilename_strip_counterexample :
    downloadFilename " A" = "A.pdf" ∧ specFilename " A" = "_A.pdf" ∧
      ("A.pdf" : String) ≠ "_A.pdf" :=
  ⟨rfl, rfl, by decide⟩

/-- C6 (amended): for every ASCII title, the download filename is derived by
trimming leading/trailing whitespace, then replacing spaces with underscores,
stripping every character outside `[A-Za-z0-9_.-]`, applying no lowercasing,
and appending the fixed suffix `.pdf`. -/
theorem downloadFilename_spec (title : String)
    (_h : ∀ c ∈ title.data, c.toNat ≤ 127) :
    downloadFilename title =
      (⟨(replaceSpaces (pyStrip title)).data.filter specKeep⟩ : String) ++ ".pdf" := by
  unfold downloadFilename sanitize_filename
  have hf : (fun c => !(unsafeChar c)) = specKeep := funext keepChar_eq
  rw [hf]

theorem downloadFilename_spec_witness :
    downloadFilename "Attention Is All You Need: 2023!" =
      (⟨(replaceSpaces (pyStrip "Attention Is All You Need: 2023!")).data.filter
        specKeep⟩ : String) ++ ".pdf" :=
  downloadFilename_spec "Attention Is All You Need: 2023!" (by decide)

/-- C7: status aliases are equivalent to their canonical statuses,
case-insensitively: `ns`/`NS`/`not started`, `ip`/`IP`/`in progress` and
`d`/`D`/`read` produce identical results on every working set. -/
theorem setStatus_alias_equiv (papers : List Paper) (paper_id : Int)
    (start_date finished_date : Option String) (today : String) :
    (set_paper_status papers paper_id "ns" start_date finished_date today
        = set_paper_status papers paper_id "NS" start_date finished_date today ∧
      set_paper_status papers paper_id "NS" start_date finished_date today
        = set_paper_status papers paper_id "not started" start_date finished_date today) ∧
    (set_paper_status papers paper_id "ip" start_date finished_date today
        = set_paper_status papers paper_id "IP" start_date finished_date today ∧
      set_paper_status papers paper_id "IP" start_date finished_date today
        = set_paper_status papers paper_id "in progress" start_date finished_date today) ∧
    (set_paper_status papers paper_id "d" start_date finished_date today
        = set_paper_status papers paper_id "D" start_date finished_date today ∧
      set_paper_status papers paper_id "D" start_date finished_date today
        = set_paper_status papers paper_id "read" start_date finished_date today) :=
  ⟨⟨rfl, rfl⟩, ⟨rfl, rfl⟩, ⟨rfl, rfl⟩⟩

/-- C10: an empty-string date override behaves exactly like an absent one:
`set_paper_status` yields the same result with `some ""` as with `none` in
either override slot, and the `x or today` idiom maps the empty string to
today's date. -/
theorem setStatus_empty_override (papers : List Paper) (paper_id : Int)
    (status : String) (start_date finished_date : Option String) (today : String) :
    set_paper_status papers paper_id status (some "") finished_date today
      = set_paper_status papers paper_id status none finished_date today ∧
    set_paper_status papers paper_id status start_date (some "") today
      = set_paper_status papers paper_id status start_date none today ∧
    pyOr (some "") today = today :=
  ⟨setStatusLoop_empty_start paper_id (resolveStatus status) finished_date today papers,
   setStatusLoop_empty_fin paper_id (resolveStatus status) start_date today papers,
   rfl⟩


theorem specFlatten_cons (paper : Dict) (rest : List Dict) :
    specFlatten (paper :: rest)
      = (dictDel "related" paper ::
          (relDicts paper).map (fun d => dictSet "parent_title" (pyGet "title" paper) d))
        ++ specFlatten rest := by
  simp [specFlatten]

theorem specFlatten_length :
    ∀ papers : List Dict,
      (specFlatten papers).length
        = papers.length + (papers.map (fun p => (relDicts p).length)).sum
  | [] => rfl
  | p :: rest => by
    rw [specFlatten_cons]
    simp only [List.length_append, List.length_cons, List.length_map,
      List.map_cons, List.sum_cons, specFlatten_length rest]
    omega

theorem copyRelated_eq (parent : Val) :
    ∀ l : List Val, (∀ v ∈ l, isDictVal v = true) →
      copyRelated parent l
        = some ((l.filterMap (fun v => match v with
            | Val.vdict d => some d
            | _ => none)).map (fun d => dictSet "parent_title" parent d))
  | [], _ => rfl
  | Val.vdict d :: rest, h => by
    rw [copyRelated,
      copyRelated_eq parent rest (fun w hw => h w (List.mem_cons_of_mem _ hw))]
    rfl
  | Val.vnull :: _, h =>
    absurd (h Val.vnull (List.mem_cons_self _ _)) (by simp [isDictVal])
  | Val.vstr s :: _, h =>
    absurd (h (Val.vstr s) (List.mem_cons_self _ _)) (by simp [isDictVal])
  | Val.vint n :: _, h =>
    absurd (h (Val.vint n) (List.mem_cons_self _ _)) (by simp [isDictVal])
  | Val.vlist vs :: _, h =>
    absurd (h (Val.vlist vs) (List.mem_cons_self _ _)) (by simp [isDictVal])

theorem flatten_papers_eq :
    ∀ papers : List Dict, (∀ p ∈ papers, RelWF p) →
      flatten_papers papers = some (specFlatten papers)
  | [], _ => rfl
  | paper :: rest, h => by
    have h2 := flatten_papers_eq rest (fun q hq => h q (List.mem_cons_of_mem _ hq))
    rw [flatten_papers, h2, specFlatten_cons]
    cases hr : dictGet "related" paper with
    | none => simp [relDicts, relVals, hr]
    | some v =>
      cases v with
      | vlist l =>
        have hl : ∀ w ∈ l, isDictVal w = true := by
          have h1 : RelWF paper := h paper (List.mem_cons_self _ _)
          simpa [RelWF, relVals, hr] using h1
        simp [copyRelated_eq (pyGet "title" paper) l hl, relDicts, relVals, hr]
      | vnull => simp [relDicts, relVals, hr]
      | vstr s => simp [relDicts, relVals, hr]
      | vint n => simp [relDicts, relVals, hr]
      | vdict d => simp [relDicts, relVals, hr]

/-- C3: flattening a well-formed raw catalog succeeds and produces, in
pre-order, each top-level entry stripped of its `related` field (all other
fields preserved) followed immediately by its related entries in original
order, each a copy of the nested entry with `parent_title` set to the
originating entry's title; the output has exactly N + Σ k_i records. -/
theorem flatten_papers_spec (papers : List Dict) (hwf : ∀ p ∈ papers, RelWF p) :
    flatten_papers papers = some (specFlatten papers) ∧
    (specFlatten papers).length
      = papers.length + (papers.map (fun p => (relDicts p).length)).sum :=
  ⟨flatten_papers_eq papers hwf, specFlatten_length papers⟩

theorem flatten_papers_spec_witness :
    flatten_papers sampleCatalog = some (specFlatten sampleCatalog) :=
  (flatten_papers_spec sampleCatalog (by decide)).1

theorem dictHas_dictDel (k k2 : String) (d : Dict) (h : dictHas k d = false) :
    dictHas k (dictDel k2 d) = false := by
  simp only [dictHas, List.any_eq_false] at *
  intro kv hkv
  exact h kv (List.mem_of_mem_filter hkv)

theorem dictHas_dictSet_ne (k k2 : String) (v : Val) (d : Dict)
    (hne : (k2 == k) = false) (h : dictHas k d = false) :
    dictHas k (dictSet k2 v d) = false := by
  unfold dictSet
  by_cases hh : dictHas k2 d = true
  · rw [if_pos hh]
    simp only [dictHas, List.any_eq_false] at *
    intro kv hkv
    obtain ⟨kv0, hkv0, rfl⟩ := List.mem_map.mp hkv
    by_cases he : (kv0.1 == k2) = true
    · rw [if_pos he]
      simpa using hne
    · rw [if_neg he]
      exact h kv0 hkv0
  · rw [if_neg hh]
    simp only [dictHas, List.any_eq_false] at *
    intro kv hkv
    rcases List.mem_append.mp hkv with hl | hr
    · exact h kv hl
    · rcases List.mem_singleton.mp hr with rfl
      simpa using hne

theorem specFlatten_no_id (papers : List Dict)
    (hid : ∀ p ∈ papers, dictHas "id" p = false ∧
      ∀ d ∈ relDicts p, dictHas "id" d = false) :
    ∀ d ∈ specFlatten papers, dictHas "id" d = false := by
  intro d hd
  unfold specFlatten at hd
  rw [List.mem_flatMap] at hd
  obtain ⟨p, hp, hdp⟩ := hd
  rcases List.mem_cons.mp hdp with rfl | hmem
  · exact dictHas_dictDel "id" "related" p (hid p hp).1
  · obtain ⟨d0, hd0, rfl⟩ := List.mem_map.mp hmem
    exact dictHas_dictSet_ne "id" "parent_title" (pyGet "title" p) d0 rfl
      ((hid p hp).2 d0 hd0)

theorem dictGet_append_new (k : String) (v : Val) :
    ∀ d : Dict, dictHas k d = false → dictGet k (d ++ [(k, v)]) = some v
  | [], _ => by simp [dictGet]
  | kv :: rest, h => by
    simp only [dictHas, List.any_cons, Bool.or_eq_false_iff] at h
    have ih := dictGet_append_new k v rest h.2
    simpa [dictGet, List.find?_cons, h.1] using ih

theorem dictGet_dictSet_new (k : String) (v : Val) (d : Dict)
    (h : dictHas k d = false) :
    dictGet k (dictSet k v d) = some v := by
  rw [dictSet, if_neg (by simp [h])]
  exact dictGet_append_new k v d h

theorem assignFrom_ids :
    ∀ (l : List Dict) (k : Nat), (∀ d ∈ l, dictHas "id" d = false) →
      ((l.enumFrom k).map (fun ip => if dictHas "id" ip.2 then ip.2
          else dictSet "id" (Val.vint (Int.ofNat ip.1)) ip.2)).map
            (fun d => dictGet "id" d)
        = (List.range' k l.length).map (fun i => some (Val.vint (Int.ofNat i))) := by
  intro l
  induction l with
  | nil => intro k _; rfl
  | cons d rest ih =>
    intro k h
    have hd := h d (List.mem_cons_self _ _)
    rw [List.enumFrom_cons, List.length_cons, List.range'_succ]
    simp only [List.map_cons, hd, Bool.false_eq_true, if_false]
    rw [dictGet_dictSet_new "id" (Val.vint (Int.ofNat k)) d hd,
      ih (k + 1) (fun q hq => h q (List.mem_cons_of_mem _ hq))]

theorem assign_ids_keeps (l : List Dict) (i : Nat) (d : Dict)
    (h1 : l[i]? = some d) (h2 : dictHas "id" d = true) :
    (assign_ids l)[i]? = some d := by
  unfold assign_ids
  rw [List.getElem?_map, List.getElem?_enumFrom, h1]
  simp [h2]

theorem assign_ids_numbers (l : List Dict) (i : Nat) (d : Dict)
    (h1 : l[i]? = some d) (h2 : dictHas "id" d = false) :
    (assign_ids l)[i]? = some (dictSet "id" (Val.vint (Int.ofNat (i + 1))) d) := by
  unfold assign_ids
  rw [List.getElem?_map, List.getElem?_enumFrom, h1]
  simp [h2, Nat.add_comm]

/-- C4: on a well-formed catalog none of whose records (top-level or nested)
carries a pre-assigned id, flatten succeeds and assign-ids gives the records
ids exactly 1..M, pairwise distinct, equal to each record's 1-based position
in flattening order; moreover, on any list, assign-ids returns a record that
already carries an id untouched at its position, and gives a record lacking
an id the id i + 1 at 0-based position i — the absolute 1-based running
position among all records, so id-carrying records still consume a counting
slot. -/
theorem assign_ids_spec (papers : List Dict)
    (hwf : ∀ p ∈ papers, RelWF p)
    (hid : ∀ p ∈ papers, dictHas "id" p = false ∧
      ∀ d ∈ relDicts p, dictHas "id" d = false) :
    flatten_papers papers = some (specFlatten papers) ∧
    (assign_ids (specFlatten papers)).map (fun d => dictGet "id" d)
      = (List.range' 1 (specFlatten papers).length).map
          (fun i => some (Val.vint (Int.ofNat i))) ∧
    (∀ (l : List Dict) (i : Nat) (d : Dict), l[i]? = some d →
      dictHas "id" d = true → (assign_ids l)[i]? = some d) ∧
    (∀ (l : List Dict) (i : Nat) (d : Dict), l[i]? = some d →
      dictHas "id" d = false →
      (assign_ids l)[i]? = some (dictSet "id" (Val.vint (Int.ofNat (i + 1))) d)) :=
  ⟨flatten_papers_eq papers hwf,
   assignFrom_ids (specFlatten papers) 1 (specFlatten_no_id papers hid),
   fun l i d h1 h2 => assign_ids_keeps l i d h1 h2,
   fun l i d h1 h2 => assign_ids_numbers l i d h1 h2⟩

theorem assign_ids_spec_witness :
    (assign_ids (specFlatten sampleCatalog)).map (fun d => dictGet "id" d)
      = (List.range' 1 (specFlatten sampleCatalog).length).map
          (fun i => some (Val.vint (Int.ofNat i))) ∧
    (assign_ids sampleMixed)[1]?
      = some (dictSet "id" (Val.vint (Int.ofNat 2)) [("title", Val.vstr "n")]) :=
  ⟨(assign_ids_spec sampleCatalog (by decide) (by decide)).2.1,
   (assign_ids_spec sampleCatalog (by decide) (by decide)).2.2.2
     sampleMixed 1 [("title", Val.vstr "n")] rfl rfl⟩

end PapersCli
